import Mathlib

/-!
Verification of the ledger/accounting layer of a personal finance tracker.

The program is a Python class `GerenciadorFinancas` backed by an SQLite
database, plus a Flask front end.  Several methods are defined twice in the
class body; Python keeps the LAST definition, so the embedding below models
the final (effective) version of each method:

  - `adicionar_transacao` (5 business parameters, no `conta_id`): normalizes
    only expenses (`if tipo == 'despesa': valor = -abs(valor)`), then runs an
    INSERT that omits the NOT NULL column `conta_id`; the resulting
    IntegrityError is caught and printed, so the store is never changed and
    the function returns None.
  - `atualizar_transacao` (no `conta_id`): same one-sided normalization, then
    `UPDATE ... WHERE id = ? AND user_id = ?`, returning `rowcount > 0`.
  - `excluir_transacao`: `DELETE ... WHERE id = ? AND user_id = ?`,
    returning `rowcount > 0`.
  - `calcular_resumo`, `ler_transacoes`, `relatorio_por_categoria`,
    `listar_contas_com_saldo`, `criar_conta` as in the source.

Modelling conventions: SQL REAL money amounts are modelled as exact integers
(`Int`); the TEXT date column, always written via `strftime('%Y-%m-%d')`, is
modelled as a year/month/day triple whose lexicographic order agrees with the
string order SQLite uses; Python dicts built by the code are modelled as
association lists over a `PyVal` value type; SQLite `ORDER BY` is modelled as
a stable sort on the scan (insertion) order.
-/

namespace AppFin

/-- Calendar date, standing for the TEXT column written as YYYY-MM-DD. -/
structure Data where
  year : Nat
  month : Nat
  day : Nat
deriving DecidableEq, Repr

/-- A row of the `transacoes` table.  `conta_id` is `Option` so that the
INSERT attempt of the effective `adicionar_transacao`, which supplies no
`conta_id`, can be expressed; the NOT NULL constraint is enforced by
`insereTransacao`. -/
structure Transacao where
  id : Nat
  data : Data
  tipo : String
  descricao : String
  valor : Int
  categoria : String
  user_id : Nat
  conta_id : Option Nat
deriving DecidableEq, Repr

/-- A row of the `contas` table.  The CREATE TABLE statement declares exactly
the columns id, user_id, nome, saldo_inicial, tipo_conta (no limite /
data_fechamento / data_vencimento columns). -/
structure Conta where
  id : Nat
  user_id : Nat
  nome : String
  saldo_inicial : Int
  tipo_conta : Option String
deriving DecidableEq, Repr

/-- Database state: the two tables relevant to the ledger, rows in
insertion (rowid) order. -/
structure DB where
  contas : List Conta
  transacoes : List Transacao
deriving DecidableEq, Repr

/-- Python values stored in the dicts the code builds. -/
inductive PyVal where
  | int (i : Int)
  | str (s : String)
deriving DecidableEq, Repr

/-- A Python dict literal with string keys, as an association list. -/
abbrev Dict := List (String × PyVal)

/-- Dict lookup, `d[k]` returning `none` where Python raises KeyError. -/
def dictGet (d : Dict) (k : String) : Option PyVal :=
  match d with
  | [] => none
  | (k2, v) :: rest => if k2 = k then some v else dictGet rest k

/-- `d[k]` as Python evaluates it: a missing key raises KeyError. -/
def pyDictAcesso (d : Dict) (k : String) : Except String PyVal :=
  match dictGet d k with
  | some v => Except.ok v
  | none => Except.error (String.append "KeyError: " k)

/-- Python truthiness of the optional int filter arguments:
`if mes:` is false for None and for 0. -/
def pyTruthy : Option Nat → Bool
  | none => false
  | some n => n != 0

/-- The WHERE clauses the code appends for the month/year filters:
month compares `strftime(%m, data)` with the zero-padded month, year
compares `strftime(%Y, data)` with the year.  A clause is added only when
the Python argument is truthy. -/
def matchesFiltro (d : Data) (mes ano : Option Nat) : Bool :=
  (!pyTruthy mes || d.month == mes.getD 0) && (!pyTruthy ano || d.year == ano.getD 0)

/-- Sum of the `valor` column, with SQL `SUM(...) or 0.0` giving 0 on an
empty row set. -/
def somaValores (ts : List Transacao) : Int :=
  (ts.map Transacao.valor).sum

/-- The sign normalization both effective write paths perform:
`if tipo == 'despesa': valor = -abs(valor)` — income amounts pass through
unchanged. -/
def normaliza (tipo : String) (valor : Int) : Int :=
  if tipo = "despesa" then -(abs valor) else valor

/-- Next AUTOINCREMENT id for `transacoes`. -/
def nextTransacaoId (db : DB) : Nat :=
  (db.transacoes.map Transacao.id).foldr max 0 + 1

/-- Next AUTOINCREMENT id for `contas`. -/
def nextContaId (db : DB) : Nat :=
  (db.contas.map Conta.id).foldr max 0 + 1

/-- Whether a `contas` row with the given id exists (FOREIGN KEY check). -/
def contaExiste (db : DB) (cid : Nat) : Bool :=
  db.contas.any (fun c => c.id == cid)

/-- The INSERT INTO transacoes statement, with the schema's NOT NULL
constraint on `conta_id` and the foreign key to `contas`. -/
def insereTransacao (db : DB) (d : Data) (tipo descricao : String) (valor : Int)
    (categoria : String) (uid : Nat) (cid : Option Nat) : Except String DB :=
  match cid with
  | none => Except.error "NOT NULL constraint failed: transacoes.conta_id"
  | some c =>
    if contaExiste db c then
      Except.ok { db with transacoes := db.transacoes ++
        [⟨nextTransacaoId db, d, tipo, descricao, valor, categoria, uid, some c⟩] }
    else Except.error "FOREIGN KEY constraint failed"

/-- The effective (last) definition of `adicionar_transacao`: five business
parameters, no `conta_id`.  It normalizes only expenses, attempts an INSERT
that omits `conta_id`, catches any exception (printing it), and falls through
returning None.  The second component is the Python return value. -/
def adicionar_transacao (db : DB) (hoje : Data) (tipo descricao : String)
    (valor : Int) (categoria : String) (uid : Nat) : DB × Option Unit :=
  let v := normaliza tipo valor
  match insereTransacao db hoje tipo descricao v categoria uid none with
  | Except.ok db2 => (db2, none)
  | Except.error _ => (db, none)

/-- The effective (last) definition of `atualizar_transacao`: normalizes only
expenses, then `UPDATE transacoes SET tipo, descricao, valor, categoria
WHERE id = ? AND user_id = ?` and returns `rowcount > 0`. -/
def atualizar_transacao (db : DB) (tid : Nat) (tipo descricao : String)
    (valor : Int) (categoria : String) (uid : Nat) : DB × Bool :=
  let v := normaliza tipo valor
  let novas := db.transacoes.map (fun t =>
    if t.id == tid && t.user_id == uid then
      { t with tipo := tipo, descricao := descricao, valor := v, categoria := categoria }
    else t)
  ({ db with transacoes := novas },
    !(db.transacoes.filter (fun t => t.id == tid && t.user_id == uid)).isEmpty)

/-- The effective (last) definition of `excluir_transacao`:
`DELETE FROM transacoes WHERE id = ? AND user_id = ?`, returning
`rowcount > 0`. -/
def excluir_transacao (db : DB) (tid uid : Nat) : DB × Bool :=
  ({ db with transacoes :=
      db.transacoes.filter (fun t => !(t.id == tid && t.user_id == uid)) },
    !(db.transacoes.filter (fun t => t.id == tid && t.user_id == uid)).isEmpty)

/-- `listar_contas_por_usuario`: SELECT * FROM contas WHERE user_id = ?. -/
def listar_contas_por_usuario (db : DB) (uid : Nat) : List Conta :=
  db.contas.filter (fun c => c.user_id == uid)

/-- The transactions summed for one account by `listar_contas_com_saldo`:
WHERE user_id = ? AND conta_id = ?. -/
def transacoesDaConta (db : DB) (uid cid : Nat) : List Transacao :=
  db.transacoes.filter (fun t => t.user_id == uid && t.conta_id == some cid)

/-- The dict literal appended for each account by `listar_contas_com_saldo`:
exactly the keys id, nome, saldo_atual. -/
def contaDict (c : Conta) (saldo : Int) : Dict :=
  [("id", PyVal.int c.id), ("nome", PyVal.str c.nome), ("saldo_atual", PyVal.int saldo)]

/-- `listar_contas_com_saldo`: for each of the user's accounts, balance =
saldo_inicial + (SUM(valor) of that user's transactions on the account,
or 0.0 when NULL). -/
def listar_contas_com_saldo (db : DB) (uid : Nat) : List Dict :=
  (listar_contas_por_usuario db uid).map (fun c =>
    contaDict c (c.saldo_inicial + somaValores (transacoesDaConta db uid c.id)))

/-- The rows one of the two aggregate queries of `calcular_resumo` ranges
over, and likewise the despesa rows of `relatorio_por_categoria`:
WHERE tipo = ? AND user_id = ? plus the optional month/year clauses. -/
def transacoesDoTipo (db : DB) (uid : Nat) (tipo : String) (mes ano : Option Nat) :
    List Transacao :=
  db.transacoes.filter (fun t =>
    t.tipo == tipo && t.user_id == uid && matchesFiltro t.data mes ano)

/-- The effective (last) definition of `calcular_resumo`: the receita sum,
the despesa sum (each defaulting to 0), and their plain arithmetic sum. -/
def calcular_resumo (db : DB) (uid : Nat) (mes ano : Option Nat) : Int × Int × Int :=
  let total_receitas := somaValores (transacoesDoTipo db uid "receita" mes ano)
  let total_despesas := somaValores (transacoesDoTipo db uid "despesa" mes ano)
  (total_receitas, total_despesas, total_receitas + total_despesas)

/-- Stable insertion step: place `x` before the first element `y` with
`r x y`; used to model `ORDER BY` on the table-scan order. -/
def insereOrd (r : α → α → Bool) (x : α) : List α → List α
  | [] => [x]
  | y :: ys => if r x y then x :: y :: ys else y :: insereOrd r x ys

/-- Stable sort by the boolean relation `r` (kept elements that compare
equal stay in scan order). -/
def ordenaPor (r : α → α → Bool) : List α → List α
  | [] => []
  | x :: xs => insereOrd r x (ordenaPor r xs)

/-- Date comparison `a >= b` in the lexicographic year/month/day order, which
is the string order of the stored YYYY-MM-DD texts. -/
def dataGe (a b : Data) : Bool :=
  decide (b.year < a.year ∨ (b.year = a.year ∧
    (b.month < a.month ∨ (b.month = a.month ∧ b.day ≤ a.day))))

/-- The `ler_transacoes` query before ORDER BY: transacoes JOIN contas ON
t.conta_id = c.id, selecting t.* plus c.nome, WHERE t.user_id = ? plus the
optional month/year clauses, in scan (insertion) order. -/
def lerPreOrdem (db : DB) (uid : Nat) (mes ano : Option Nat) :
    List (Transacao × String) :=
  (db.transacoes.flatMap (fun t =>
    (db.contas.filter (fun c => t.conta_id == some c.id)).map (fun c => (t, c.nome)))).filter
    (fun r => r.1.user_id == uid && matchesFiltro r.1.data mes ano)

/-- The effective (last) definition of `ler_transacoes`: the join above,
ORDER BY t.data DESC (modelled as a stable descending sort). -/
def ler_transacoes (db : DB) (uid : Nat) (mes ano : Option Nat) :
    List (Transacao × String) :=
  ordenaPor (fun r s => dataGe r.1.data s.1.data) (lerPreOrdem db uid mes ano)

/-- The distinct `categoria` values GROUP BY groups the matching rows into. -/
def categoriasDistintas : List Transacao → List String
  | [] => []
  | t :: ts =>
    if t.categoria ∈ categoriasDistintas ts then categoriasDistintas ts
    else t.categoria :: categoriasDistintas ts

/-- The effective (last) definition of `relatorio_por_categoria`:
SELECT categoria, SUM(valor) FROM transacoes WHERE tipo = 'despesa' AND
user_id = ? (plus filters) GROUP BY categoria ORDER BY total ASC. -/
def relatorio_por_categoria (db : DB) (uid : Nat) (mes ano : Option Nat) :
    List (String × Int) :=
  let ms := transacoesDoTipo db uid "despesa" mes ano
  ordenaPor (fun p q => decide (p.2 ≤ q.2))
    ((categoriasDistintas ms).map (fun cat =>
      (cat, somaValores (ms.filter (fun t => t.categoria == cat)))))

/-- Columns of the `contas` table as created by `_criar_tabelas`. -/
def contasTabelaColunas : List String :=
  ["id", "user_id", "nome", "saldo_inicial", "tipo_conta"]

/-- Columns named by the INSERT statement inside `criar_conta`. -/
def criarContaInsertColunas : List String :=
  ["user_id", "nome", "saldo_inicial", "tipo_conta", "limite",
   "data_fechamento", "data_vencimento"]

/-- `criar_conta`: the INSERT names seven columns; preparing it fails with an
OperationalError whenever one of them is not a column of `contas`, and the
except-branch prints the error and returns False with the store unchanged. -/
def criar_conta (db : DB) (uid : Nat) (nome : String) (saldo_inicial : Int)
    (tipo_conta : Option String) (limite : Option Int)
    (data_fechamento data_vencimento : Option String) : DB × Bool :=
  if criarContaInsertColunas.all (fun col => contasTabelaColunas.contains col) then
    ({ db with contas := db.contas ++
        [⟨nextContaId db, uid, nome, saldo_inicial, tipo_conta⟩] }, true)
  else (db, false)

/-- Lines 113-116 of the index route: the two list comprehensions read
`c['tipo_conta']` for every dict returned by `listar_contas_com_saldo`; a
missing key raises KeyError, aborting the whole route. -/
def separaDinheiroCartao : List Dict → Except String (List Dict × List Dict)
  | [] => Except.ok ([], [])
  | d :: ds =>
    match pyDictAcesso d "tipo_conta" with
    | Except.error e => Except.error e
    | Except.ok v =>
      match separaDinheiroCartao ds with
      | Except.error e => Except.error e
      | Except.ok (din, car) =>
        if v == PyVal.str "cartao_de_credito" then Except.ok (din, d :: car)
        else Except.ok (d :: din, car)

/-- Data-model invariant from the schema design: a transaction's redundant
`user_id` agrees with the owner of the account it references. -/
def WF (db : DB) : Prop :=
  ∀ t ∈ db.transacoes, ∀ c ∈ db.contas, t.conta_id = some c.id → t.user_id = c.user_id

instance : DecidablePred WF := fun db => by
  unfold WF; infer_instance

/-- Concrete store used by counterexamples and witnesses: one user, one
account, one income transaction of 30. -/
def contaExemplo : Conta := ⟨1, 1, "Carteira", 0, some "carteira"⟩

/-- Concrete income transaction of 30 on the example account. -/
def transacaoExemplo : Transacao :=
  ⟨1, ⟨2024, 3, 10⟩, "receita", "salario", 30, "renda", 1, some 1⟩

/-- Concrete one-account, one-transaction store. -/
def dbExemplo : DB := ⟨[contaExemplo], [transacaoExemplo]⟩

/-- The empty store. -/
def dbVazio : DB := ⟨[], []⟩

/-- Concrete expense transaction of -80 on the example account. -/
def transacaoDespesa : Transacao :=
  ⟨2, ⟨2024, 3, 11⟩, "despesa", "mercado", -80, "comida", 1, some 1⟩

/-- Concrete store holding one income and one expense transaction. -/
def dbDespesa : DB := ⟨[contaExemplo], [transacaoExemplo, transacaoDespesa]⟩

theorem perm_insereOrd (r : α → α → Bool) (x : α) (l : List α) :
    (insereOrd r x l).Perm (x :: l) := by
  induction l with
  | nil => simp [insereOrd]
  | cons y ys ih =>
    unfold insereOrd
    by_cases h : r x y = true
    · rw [if_pos h]
    · rw [if_neg h]
      exact List.Perm.trans (List.Perm.cons y ih) (List.Perm.swap x y ys)

theorem perm_ordenaPor (r : α → α → Bool) (l : List α) :
    (ordenaPor r l).Perm l := by
  induction l with
  | nil => simp [ordenaPor]
  | cons x xs ih =>
    unfold ordenaPor
    exact List.Perm.trans (perm_insereOrd r x (ordenaPor r xs)) (List.Perm.cons x ih)

theorem pairwise_insereOrd (r : α → α → Bool)
    (htot : ∀ a b, r a b = true ∨ r b a = true)
    (htrans : ∀ a b c, r a b = true → r b c = true → r a c = true)
    (x : α) (l : List α) (hl : List.Pairwise (fun a b => r a b = true) l) :
    List.Pairwise (fun a b => r a b = true) (insereOrd r x l) := by
  induction l with
  | nil => simp [insereOrd]
  | cons y ys ih =>
    rw [List.pairwise_cons] at hl
    obtain ⟨hy, hys⟩ := hl
    unfold insereOrd
    by_cases h : r x y = true
    · rw [if_pos h, List.pairwise_cons]
      refine ⟨?_, List.pairwise_cons.mpr ⟨hy, hys⟩⟩
      intro b hb
      rcases List.mem_cons.mp hb with rfl | hb2
      · exact h
      · exact htrans x y b h (hy b hb2)
    · rw [if_neg h, List.pairwise_cons]
      refine ⟨?_, ih hys⟩
      intro b hb
      have hb2 : b = x ∨ b ∈ ys := by
        simpa using (perm_insereOrd r x ys).mem_iff.mp hb
      rcases hb2 with rfl | hb2
      · rcases htot b y with h1 | h1
        · exact absurd h1 h
        · exact h1
      · exact hy b hb2

theorem pairwise_ordenaPor (r : α → α → Bool)
    (htot : ∀ a b, r a b = true ∨ r b a = true)
    (htrans : ∀ a b c, r a b = true → r b c = true → r a c = true)
    (l : List α) :
    List.Pairwise (fun a b => r a b = true) (ordenaPor r l) := by
  induction l with
  | nil => simp [ordenaPor]
  | cons x xs ih => exact pairwise_insereOrd r htot htrans x (ordenaPor r xs) ih

theorem filter_insereOrd (r : α → α → Bool) (p : α → Bool)
    (hp : ∀ a b, p a = true → p b = true → r a b = true)
    (x : α) (l : List α) :
    (insereOrd r x l).filter p = (x :: l).filter p := by
  induction l with
  | nil => simp [insereOrd]
  | cons y ys ih =>
    unfold insereOrd
    by_cases h : r x y = true
    · rw [if_pos h]
    · rw [if_neg h]
      by_cases hpx : p x = true
      · have hpy : p y = false := by
          cases h1 : p y
          · rfl
          · exact absurd (hp x y hpx h1) h
        simp only [List.filter_cons, hpx, hpy, if_true, if_false, Bool.false_eq_true, ih]
      · have hpx2 : p x = false := by
          cases h1 : p x
          · rfl
          · exact absurd h1 hpx
        simp only [List.filter_cons, hpx2, Bool.false_eq_true, if_false, ih]

theorem filter_ordenaPor (r : α → α → Bool) (p : α → Bool)
    (hp : ∀ a b, p a = true → p b = true → r a b = true)
    (l : List α) :
    (ordenaPor r l).filter p = l.filter p := by
  induction l with
  | nil => simp [ordenaPor]
  | cons x xs ih =>
    unfold ordenaPor
    rw [filter_insereOrd r p hp x (ordenaPor r xs)]
    simp only [List.filter_cons, ih]

theorem dataGe_total (a b : Data) : dataGe a b = true ∨ dataGe b a = true := by
  simp only [dataGe, decide_eq_true_eq]
  omega

theorem dataGe_trans (a b c : Data) (h1 : dataGe a b = true) (h2 : dataGe b c = true) :
    dataGe a c = true := by
  simp only [dataGe, decide_eq_true_eq] at h1 h2 ⊢
  omega

theorem dataGe_refl (a : Data) : dataGe a a = true := by
  simp [dataGe]

theorem somaValores_nil : somaValores [] = 0 := rfl

theorem somaValores_nonpos (l : List Transacao) (h : ∀ t ∈ l, t.valor ≤ 0) :
    somaValores l ≤ 0 := by
  induction l with
  | nil => simp [somaValores]
  | cons t ts ih =>
    have h1 := h t (List.mem_cons_self t ts)
    have h2 := ih (fun u hu => h u (List.mem_cons_of_mem t hu))
    simp only [somaValores, List.map_cons, List.sum_cons] at h2 ⊢
    omega

theorem mem_categoriasDistintas (cat : String) (ts : List Transacao) :
    cat ∈ categoriasDistintas ts ↔ ∃ t ∈ ts, t.categoria = cat := by
  induction ts with
  | nil => simp [categoriasDistintas]
  | cons t ts ih =>
    unfold categoriasDistintas
    by_cases h : t.categoria ∈ categoriasDistintas ts
    · rw [if_pos h, ih]
      constructor
      · rintro ⟨u, hu, rfl⟩
        exact ⟨u, List.mem_cons_of_mem t hu, rfl⟩
      · rintro ⟨u, hu, hcat⟩
        rcases List.mem_cons.mp hu with rfl | hu2
        · exact ih.mp (hcat ▸ h)
        · exact ⟨u, hu2, hcat⟩
    · rw [if_neg h]
      simp only [List.mem_cons]
      constructor
      · rintro (rfl | hcat)
        · exact ⟨t, Or.inl rfl, rfl⟩
        · obtain ⟨u, hu, h2⟩ := ih.mp hcat
          exact ⟨u, Or.inr hu, h2⟩
      · rintro ⟨u, (rfl | hu2), h2⟩
        · exact Or.inl h2.symm
        · exact Or.inr (ih.mpr ⟨u, hu2, h2⟩)

theorem nodup_categoriasDistintas (ts : List Transacao) :
    (categoriasDistintas ts).Nodup := by
  induction ts with
  | nil => simp [categoriasDistintas]
  | cons t ts ih =>
    unfold categoriasDistintas
    by_cases h : t.categoria ∈ categoriasDistintas ts
    · rwa [if_pos h]
    · rw [if_neg h]
      exact List.nodup_cons.mpr ⟨h, ih⟩

theorem length_filter_matching_le_one (l : List Transacao) (tid uid : Nat)
    (h : (l.map Transacao.id).Nodup) :
    (l.filter (fun t => t.id == tid && t.user_id == uid)).length ≤ 1 := by
  induction l with
  | nil => simp
  | cons t ts ih =>
    simp only [List.map_cons, List.nodup_cons] at h
    obtain ⟨hni, hnd⟩ := h
    rw [List.filter_cons]
    by_cases hp : (t.id == tid && t.user_id == uid) = true
    · rw [if_pos hp]
      have hnil : ts.filter (fun u => u.id == tid && u.user_id == uid) = [] := by
        rw [List.filter_eq_nil_iff]
        intro u hu hcu
        simp only [Bool.and_eq_true, beq_iff_eq] at hp hcu
        apply hni
        rw [hp.1, ← hcu.1]
        exact List.mem_map_of_mem Transacao.id hu
      rw [hnil]
      simp
    · rw [if_neg hp]
      exact ih hnd

theorem length_filter_not_add (l : List Transacao) (p : Transacao → Bool) :
    (l.filter (fun t => !(p t))).length + (l.filter p).length = l.length := by
  induction l with
  | nil => simp
  | cons t ts ih =>
    by_cases h : p t = true
    · simp only [List.filter_cons, h, Bool.not_true, Bool.false_eq_true, if_false, if_true,
        List.length_cons]
      omega
    · have h2 : p t = false := by
        cases h1 : p t
        · rfl
        · exact absurd h1 h
      simp only [List.filter_cons, h2, Bool.not_false, Bool.false_eq_true, if_false, if_true,
        List.length_cons]
      omega

theorem exists_mem_filter_bool {α} (l : List α) (p : α → Bool) :
    (!(l.filter p).isEmpty) = true ↔ ∃ t ∈ l, p t = true := by
  constructor
  · intro h
    cases hf : l.filter p with
    | nil => rw [hf] at h; simp at h
    | cons a as =>
      have ha : a ∈ l.filter p := by
        rw [hf]
        exact List.mem_cons_self a as
      obtain ⟨hal, hap⟩ := List.mem_filter.mp ha
      exact ⟨a, hal, hap⟩
  · rintro ⟨t, htl, htp⟩
    have hm : t ∈ l.filter p := List.mem_filter.mpr ⟨htl, htp⟩
    cases hf : l.filter p with
    | nil => rw [hf] at hm; simp at hm
    | cons a as => rfl

theorem map_if_noop {α} (l : List α) (p : α → Bool) (f : α → α)
    (h : ∀ a ∈ l, p a = false) :
    l.map (fun a => if p a then f a else a) = l := by
  induction l with
  | nil => rfl
  | cons x xs ih =>
    have hx := h x (List.mem_cons_self x xs)
    simp only [List.map_cons, hx, Bool.false_eq_true, if_false]
    rw [ih (fun a ha => h a (List.mem_cons_of_mem x ha))]

theorem map_fst_map_pair (l : List String) (f : String → Int) :
    ((l.map (fun cat => (cat, f cat))).map Prod.fst) = l := by
  induction l with
  | nil => rfl
  | cons x xs ih => simp only [List.map_cons, ih]

/-- C1 counterexample: on a store holding one income transaction of 30,
calling the effective `atualizar_transacao` with kind receita and
caller-supplied amount -50 stores -50, not +50 = abs(-50); the resulting
store has an income row with a negative amount, so the claimed
sign-normalization invariant fails as stated. -/
theorem C1_counterexample :
    (atualizar_transacao dbExemplo 1 "receita" "salario" (-50) "renda" 1).1.transacoes.map
        Transacao.valor = [-50]
    ∧ ¬(∀ t ∈ (atualizar_transacao dbExemplo 1 "receita" "salario" (-50) "renda" 1).1.transacoes,
        t.tipo = "receita" → 0 ≤ t.valor) := by
  constructor
  · rfl
  · decide

/-- C1 (amended): each effective write path applies sign normalization only
to expenses — when kind is despesa the amount handed to storage is -abs
(hence nonpositive, and update preserves the all-expenses-nonpositive
invariant), while when kind is receita the caller-supplied amount passes
through unchanged; moreover the effective create path leaves the store
unchanged, so updates are the only sign-relevant writes. -/
theorem C1_sign_normalization_amended (db : DB) (hoje : Data) (tid : Nat)
    (tipo descricao : String) (valor : Int) (categoria : String) (uid : Nat) :
    (normaliza "despesa" valor = -(abs valor) ∧ normaliza "despesa" valor ≤ 0)
    ∧ (tipo ≠ "despesa" → normaliza tipo valor = valor)
    ∧ (∀ t ∈ (atualizar_transacao db tid tipo descricao valor categoria uid).1.transacoes,
        t ∈ db.transacoes ∨ (t.tipo = tipo ∧ t.valor = normaliza tipo valor))
    ∧ ((∀ t ∈ db.transacoes, t.tipo = "despesa" → t.valor ≤ 0) →
        ∀ t ∈ (atualizar_transacao db tid tipo descricao valor categoria uid).1.transacoes,
          t.tipo = "despesa" → t.valor ≤ 0)
    ∧ (adicionar_transacao db hoje tipo descricao valor categoria uid).1 = db := by
  have hmem : ∀ t ∈ (atualizar_transacao db tid tipo descricao valor categoria uid).1.transacoes,
      t ∈ db.transacoes ∨ (t.tipo = tipo ∧ t.valor = normaliza tipo valor) := by
    intro t ht
    simp only [atualizar_transacao, List.mem_map] at ht
    obtain ⟨u, hu, hut⟩ := ht
    by_cases hc : (u.id == tid && u.user_id == uid) = true
    · rw [if_pos hc] at hut
      right
      rw [← hut]
      exact ⟨rfl, rfl⟩
    · rw [if_neg hc] at hut
      left
      rw [← hut]
      exact hu
  refine ⟨⟨by simp [normaliza], ?_⟩, ?_, hmem, ?_, rfl⟩
  · simp only [normaliza, if_pos rfl]
    exact neg_nonpos.mpr (abs_nonneg valor)
  · intro h
    simp [normaliza, h]
  · intro hall t ht htipo
    rcases hmem t ht with hmem2 | ⟨ht1, ht2⟩
    · exact hall t hmem2 htipo
    · rw [ht2, ← ht1, htipo]
      simp only [normaliza, if_pos rfl]
      exact neg_nonpos.mpr (abs_nonneg valor)

/-- C1 witness: the preservation conjunct instantiated on the concrete
store, whose only transaction is an income of 30. -/
theorem C1_witness :
    ∀ t ∈ (atualizar_transacao dbExemplo 1 "despesa" "mercado" 50 "comida" 1).1.transacoes,
      t.tipo = "despesa" → t.valor ≤ 0 :=
  (C1_sign_normalization_amended dbExemplo ⟨2024, 1, 1⟩ 1 "despesa" "mercado" 50
    "comida" 1).2.2.2.1 (by decide)

/-- C3: the effective `adicionar_transacao` (the last definition in the
class, which shadows the account-aware one) supplies no `conta_id`, so its
INSERT violates the schema's NOT NULL constraint on transacoes.conta_id;
the exception is caught internally and the store is left unchanged — no
transaction row referencing the requested account is ever created. -/
theorem C3_create_always_fails :
    insereTransacao dbExemplo ⟨2024, 5, 1⟩ "receita" "salario" 50 "renda" 1 none =
      Except.error "NOT NULL constraint failed: transacoes.conta_id"
    ∧ (adicionar_transacao dbExemplo ⟨2024, 5, 1⟩ "receita" "salario" 50 "renda" 1).1 =
      dbExemplo := by
  exact ⟨rfl, rfl⟩

/-- C8: every dict built by `listar_contas_com_saldo` has exactly the keys
id, nome and saldo_atual, so the index route's access to c[tipo_conta]
raises KeyError for every user with at least one account and the cash/card
split is never computed. -/
theorem C8_tipo_conta_missing (db : DB) (uid : Nat) :
    (∀ d ∈ listar_contas_com_saldo db uid, dictGet d "tipo_conta" = none)
    ∧ (listar_contas_com_saldo db uid ≠ [] →
        separaDinheiroCartao (listar_contas_com_saldo db uid) =
          Except.error "KeyError: tipo_conta") := by
  have hkey : ∀ d ∈ listar_contas_com_saldo db uid, dictGet d "tipo_conta" = none := by
    intro d hd
    simp only [listar_contas_com_saldo, List.mem_map] at hd
    obtain ⟨c, _, hc⟩ := hd
    rw [← hc]
    rfl
  refine ⟨hkey, ?_⟩
  intro hne
  cases hlist : listar_contas_com_saldo db uid with
  | nil => exact absurd hlist hne
  | cons d ds =>
    have hd : d ∈ listar_contas_com_saldo db uid := by
      rw [hlist]
      exact List.mem_cons_self d ds
    have hnone := hkey d hd
    simp only [separaDinheiroCartao, pyDictAcesso, hnone]
    rfl

/-- C8 witness: the KeyError on the concrete one-account store. -/
theorem C8_witness :
    separaDinheiroCartao (listar_contas_com_saldo dbExemplo 1) =
      Except.error "KeyError: tipo_conta" :=
  (C8_tipo_conta_missing dbExemplo 1).2 (by decide)

/-- C9: the INSERT inside `criar_conta` names the columns limite,
data_fechamento and data_vencimento, which the contas table created by
the same class does not define; the statement therefore always fails, the
exception handler returns False, and no account row is ever stored —
for credit cards and cash accounts alike. -/
theorem C9_criar_conta_always_fails (db : DB) (uid : Nat) (nome : String)
    (saldo_inicial : Int) (tipo_conta : Option String) (limite : Option Int)
    (df dv : Option String) :
    criar_conta db uid nome saldo_inicial tipo_conta limite df dv = (db, false)
    ∧ ("limite" ∈ criarContaInsertColunas ∧ "limite" ∉ contasTabelaColunas) := by
  have hcols : (criarContaInsertColunas.all
      (fun col => contasTabelaColunas.contains col)) = false := by decide
  refine ⟨?_, by decide⟩
  unfold criar_conta
  rw [hcols]
  rfl

/-- C10 (implicit): the effective `adicionar_transacao` returns None on
every call — the INSERT always fails on the NOT NULL conta_id column, the
exception is caught and merely printed, the store is unchanged, and the
caller receives no indication of failure. -/
theorem C10_adicionar_returns_none (db : DB) (hoje : Data) (tipo descricao : String)
    (valor : Int) (categoria : String) (uid : Nat) :
    adicionar_transacao db hoje tipo descricao valor categoria uid = (db, none) := rfl

/-- C2: update and delete are scoped by both transaction id and user id:
at most one row matches the WHERE predicate (ids are unique), the returned
boolean reports whether a row was written, a call whose id/user pair
matches no row (wrong owner or nonexistent id) leaves the store unchanged
and returns false, and only a matching row is ever modified or removed. -/
theorem C2_ownership_scoped (db : DB) (tid uid : Nat) (tipo descricao : String)
    (valor : Int) (categoria : String)
    (hids : (db.transacoes.map Transacao.id).Nodup) :
    ((db.transacoes.filter (fun t => t.id == tid && t.user_id == uid)).length ≤ 1)
    ∧ ((atualizar_transacao db tid tipo descricao valor categoria uid).2 = true ↔
        ∃ t ∈ db.transacoes, t.id = tid ∧ t.user_id = uid)
    ∧ (∀ t ∈ (atualizar_transacao db tid tipo descricao valor categoria uid).1.transacoes,
        t ∈ db.transacoes ∨ (t.id = tid ∧ t.user_id = uid))
    ∧ ((∀ t ∈ db.transacoes, ¬(t.id = tid ∧ t.user_id = uid)) →
        (atualizar_transacao db tid tipo descricao valor categoria uid).1 = db ∧
        (atualizar_transacao db tid tipo descricao valor categoria uid).2 = false)
    ∧ ((excluir_transacao db tid uid).2 = true ↔
        ∃ t ∈ db.transacoes, t.id = tid ∧ t.user_id = uid)
    ∧ (∀ t ∈ db.transacoes, ¬(t.id = tid ∧ t.user_id = uid) →
        t ∈ (excluir_transacao db tid uid).1.transacoes)
    ∧ (∀ t ∈ (excluir_transacao db tid uid).1.transacoes, t ∈ db.transacoes)
    ∧ (∀ t ∈ db.transacoes, t ∉ (excluir_transacao db tid uid).1.transacoes →
        (t.id = tid ∧ t.user_id = uid))
    ∧ ((excluir_transacao db tid uid).1.transacoes.length +
        (db.transacoes.filter (fun t => t.id == tid && t.user_id == uid)).length =
        db.transacoes.length)
    ∧ ((∀ t ∈ db.transacoes, ¬(t.id = tid ∧ t.user_id = uid)) →
        (excluir_transacao db tid uid).1 = db ∧ (excluir_transacao db tid uid).2 = false) := by
  have hiff : (!(db.transacoes.filter (fun t => t.id == tid && t.user_id == uid)).isEmpty) =
      true ↔ ∃ t ∈ db.transacoes, t.id = tid ∧ t.user_id = uid := by
    rw [exists_mem_filter_bool]
    constructor
    · rintro ⟨t, htl, htp⟩
      simp only [Bool.and_eq_true, beq_iff_eq] at htp
      exact ⟨t, htl, htp⟩
    · rintro ⟨t, htl, h1, h2⟩
      exact ⟨t, htl, by simp [h1, h2]⟩
  have hfalse : (∀ t ∈ db.transacoes, ¬(t.id = tid ∧ t.user_id = uid)) →
      ∀ t ∈ db.transacoes, (t.id == tid && t.user_id == uid) = false := by
    intro hno t ht
    cases hc : (t.id == tid && t.user_id == uid)
    · rfl
    · simp only [Bool.and_eq_true, beq_iff_eq] at hc
      exact absurd hc (hno t ht)
  have hret_false : (∀ t ∈ db.transacoes, ¬(t.id = tid ∧ t.user_id = uid)) →
      (!(db.transacoes.filter (fun t => t.id == tid && t.user_id == uid)).isEmpty) = false := by
    intro hno
    cases hb : (!(db.transacoes.filter (fun t => t.id == tid && t.user_id == uid)).isEmpty)
    · rfl
    · obtain ⟨t, ht, h1, h2⟩ := hiff.mp hb
      exact absurd ⟨h1, h2⟩ (hno t ht)
  refine ⟨length_filter_matching_le_one db.transacoes tid uid hids, hiff, ?_, ?_, hiff, ?_, ?_,
    ?_, ?_, ?_⟩
  · intro t ht
    simp only [atualizar_transacao, List.mem_map] at ht
    obtain ⟨u, hu, hut⟩ := ht
    by_cases hc : (u.id == tid && u.user_id == uid) = true
    · rw [if_pos hc] at hut
      right
      simp only [Bool.and_eq_true, beq_iff_eq] at hc
      rw [← hut]
      exact hc
    · rw [if_neg hc] at hut
      left
      rw [← hut]
      exact hu
  · intro hno
    have hmap : (atualizar_transacao db tid tipo descricao valor categoria uid).1.transacoes =
        db.transacoes :=
      map_if_noop db.transacoes (fun t => t.id == tid && t.user_id == uid)
        (fun t => { t with
                    tipo := tipo,
                    descricao := descricao,
                    valor := normaliza tipo valor,
                    categoria := categoria })
        (hfalse hno)
    constructor
    · have hdb : (atualizar_transacao db tid tipo descricao valor categoria uid).1 =
          { db with transacoes :=
              (atualizar_transacao db tid tipo descricao valor categoria uid).1.transacoes } :=
        rfl
      rw [hdb, hmap]
    · exact hret_false hno
  · intro t ht hno1
    show t ∈ db.transacoes.filter (fun u => !(u.id == tid && u.user_id == uid))
    refine List.mem_filter.mpr ⟨ht, ?_⟩
    cases hb : (t.id == tid && t.user_id == uid)
    · rfl
    · simp only [Bool.and_eq_true, beq_iff_eq] at hb
      exact absurd hb hno1
  · intro t ht
    exact (List.mem_filter.mp ht).1
  · intro t ht hnm
    by_contra hc
    apply hnm
    refine List.mem_filter.mpr ⟨ht, ?_⟩
    cases hb : (t.id == tid && t.user_id == uid)
    · rfl
    · simp only [Bool.and_eq_true, beq_iff_eq] at hb
      exact absurd hb hc
  · exact length_filter_not_add db.transacoes (fun t => t.id == tid && t.user_id == uid)
  · intro hno
    constructor
    · show ({ db with transacoes := db.transacoes.filter (fun t =>
        !(t.id == tid && t.user_id == uid)) } : DB) = db
      have : db.transacoes.filter (fun t => !(t.id == tid && t.user_id == uid)) =
          db.transacoes := by
        apply List.filter_eq_self.mpr
        intro t ht
        rw [hfalse hno t ht]
        rfl
      rw [this]
    · exact hret_false hno

/-- C2 witness: on the concrete store, updating or deleting transaction 1
with the wrong user id 2 changes nothing and reports not-changed. -/
theorem C2_witness :
    (atualizar_transacao dbExemplo 1 "despesa" "x" 10 "alimento" 2).1 = dbExemplo ∧
    (atualizar_transacao dbExemplo 1 "despesa" "x" 10 "alimento" 2).2 = false :=
  (C2_ownership_scoped dbExemplo 1 2 "despesa" "x" 10 "alimento"
    (by decide)).2.2.2.1 (by decide)

/-- C4: under the schema invariant that a transaction's redundant user_id
agrees with the owner of its account, the balance computed by
`listar_contas_com_saldo` for each of the user's accounts is the initial
balance plus the sum of exactly that account's stored transaction amounts,
and an account with no transactions gets exactly its initial balance. -/
theorem C4_balance (db : DB) (uid : Nat) (hwf : WF db) :
    listar_contas_com_saldo db uid =
      (db.contas.filter (fun c => c.user_id == uid)).map (fun c =>
        contaDict c (c.saldo_inicial +
          somaValores (db.transacoes.filter (fun t => t.conta_id == some c.id))))
    ∧ (∀ c ∈ db.contas, c.user_id = uid →
        (∀ t ∈ db.transacoes, t.conta_id ≠ some c.id) →
        contaDict c c.saldo_inicial ∈ listar_contas_com_saldo db uid) := by
  have h1 : listar_contas_com_saldo db uid =
      (db.contas.filter (fun c => c.user_id == uid)).map (fun c =>
        contaDict c (c.saldo_inicial +
          somaValores (db.transacoes.filter (fun t => t.conta_id == some c.id)))) := by
    unfold listar_contas_com_saldo listar_contas_por_usuario
    apply List.map_congr_left
    intro c hc
    obtain ⟨hcm, hcu⟩ := List.mem_filter.mp hc
    have hcu2 : c.user_id = uid := by simpa using hcu
    unfold transacoesDaConta
    congr 2
    apply congrArg somaValores
    apply List.filter_congr
    intro t ht
    by_cases h : (t.conta_id == some c.id) = true
    · have h2 : t.conta_id = some c.id := by simpa using h
      have h3 : t.user_id = uid := by rw [hwf t ht c hcm h2, hcu2]
      simp [h2, h3]
    · have h2 : (t.conta_id == some c.id) = false := by
        cases hx : (t.conta_id == some c.id)
        · rfl
        · exact absurd hx h
      simp [h2]
  refine ⟨h1, ?_⟩
  intro c hc hcu hnone
  rw [h1]
  apply List.mem_map.mpr
  refine ⟨c, List.mem_filter.mpr ⟨hc, by simp [hcu]⟩, ?_⟩
  have hz : db.transacoes.filter (fun t => t.conta_id == some c.id) = [] := by
    rw [List.filter_eq_nil_iff]
    intro t ht hb
    exact hnone t ht (by simpa using hb)
  rw [hz, somaValores_nil, add_zero]

/-- C4 witness: the balance equation instantiated on the concrete store
(one account with initial balance 0 and one income of 30). -/
theorem C4_witness :
    listar_contas_com_saldo dbExemplo 1 =
      (dbExemplo.contas.filter (fun c => c.user_id == 1)).map (fun c =>
        contaDict c (c.saldo_inicial +
          somaValores (dbExemplo.transacoes.filter (fun t => t.conta_id == some c.id)))) :=
  (C4_balance dbExemplo 1 (by decide)).1

/-- C5: `calcular_resumo` returns the sum of the matching income amounts,
the sum of the matching expense amounts, and their plain arithmetic sum;
with no matching transactions it returns (0, 0, 0), and whenever every
stored expense amount is nonpositive the expense total is nonpositive. -/
theorem C5_resumo (db : DB) (uid : Nat) (mes ano : Option Nat) :
    (calcular_resumo db uid mes ano).1 =
      somaValores (transacoesDoTipo db uid "receita" mes ano)
    ∧ (calcular_resumo db uid mes ano).2.1 =
      somaValores (transacoesDoTipo db uid "despesa" mes ano)
    ∧ (calcular_resumo db uid mes ano).2.2 =
      (calcular_resumo db uid mes ano).1 + (calcular_resumo db uid mes ano).2.1
    ∧ ((∀ t ∈ db.transacoes, ¬(t.user_id = uid ∧ matchesFiltro t.data mes ano = true)) →
        calcular_resumo db uid mes ano = (0, 0, 0))
    ∧ ((∀ t ∈ db.transacoes, t.tipo = "despesa" → t.valor ≤ 0) →
        (calcular_resumo db uid mes ano).2.1 ≤ 0) := by
  refine ⟨rfl, rfl, rfl, ?_, ?_⟩
  · intro h
    have hr : transacoesDoTipo db uid "receita" mes ano = [] := by
      unfold transacoesDoTipo
      rw [List.filter_eq_nil_iff]
      intro t ht hb
      simp only [Bool.and_eq_true, beq_iff_eq] at hb
      exact h t ht ⟨hb.1.2, hb.2⟩
    have hd : transacoesDoTipo db uid "despesa" mes ano = [] := by
      unfold transacoesDoTipo
      rw [List.filter_eq_nil_iff]
      intro t ht hb
      simp only [Bool.and_eq_true, beq_iff_eq] at hb
      exact h t ht ⟨hb.1.2, hb.2⟩
    simp only [calcular_resumo, hr, hd, somaValores_nil]
    rfl
  · intro h
    show somaValores (transacoesDoTipo db uid "despesa" mes ano) ≤ 0
    apply somaValores_nonpos
    intro t ht
    unfold transacoesDoTipo at ht
    obtain ⟨htm, htb⟩ := List.mem_filter.mp ht
    simp only [Bool.and_eq_true, beq_iff_eq] at htb
    exact h t htm htb.1.1

/-- C5 witness: on the empty store the summary is (0, 0, 0). -/
theorem C5_witness : calcular_resumo dbVazio 1 none none = (0, 0, 0) :=
  (C5_resumo dbVazio 1 none none).2.2.2.1 (by intro t ht; simp [dbVazio] at ht)

/-- C6: `ler_transacoes` returns exactly the rows of the user-and-filter
restriction of the transactions-accounts join (a permutation of it, and a
row is present iff it is the user's, matches the filter, and carries the
joined account name), sorted by date descending with equal dates kept in
scan (insertion) order; month alone matches that month over all years,
year alone matches the whole year, both together their intersection. -/
theorem C6_listing (db : DB) (uid : Nat) (mes ano : Option Nat) :
    List.Perm (ler_transacoes db uid mes ano) (lerPreOrdem db uid mes ano)
    ∧ (∀ r : Transacao × String, r ∈ ler_transacoes db uid mes ano ↔
        (r.1 ∈ db.transacoes ∧ r.1.user_id = uid ∧ matchesFiltro r.1.data mes ano = true ∧
         ∃ c ∈ db.contas, r.1.conta_id = some c.id ∧ r.2 = c.nome))
    ∧ List.Pairwise (fun a b : Transacao × String => dataGe a.1.data b.1.data = true)
        (ler_transacoes db uid mes ano)
    ∧ (∀ d : Data, (ler_transacoes db uid mes ano).filter (fun a => a.1.data == d) =
        (lerPreOrdem db uid mes ano).filter (fun a => a.1.data == d))
    ∧ (∀ d : Data, ∀ m : Nat, 1 ≤ m → matchesFiltro d (some m) none = (d.month == m))
    ∧ (∀ d : Data, ∀ y : Nat, 1 ≤ y → matchesFiltro d none (some y) = (d.year == y))
    ∧ (∀ d : Data, ∀ m y : Nat, 1 ≤ m → 1 ≤ y →
        matchesFiltro d (some m) (some y) = (d.month == m && d.year == y))
    ∧ (∀ d : Data, matchesFiltro d none none = true) := by
  have hperm : List.Perm (ler_transacoes db uid mes ano) (lerPreOrdem db uid mes ano) :=
    perm_ordenaPor (fun a b : Transacao × String => dataGe a.1.data b.1.data)
      (lerPreOrdem db uid mes ano)
  refine ⟨hperm, ?_, ?_, ?_, ?_, ?_, ?_, fun d => rfl⟩
  · intro r
    rw [hperm.mem_iff]
    unfold lerPreOrdem
    simp only [List.mem_filter, List.mem_flatMap, List.mem_map, Bool.and_eq_true, beq_iff_eq]
    constructor
    · rintro ⟨⟨t, htm, c, ⟨hcm, hcid⟩, heq⟩, hu, hf⟩
      subst heq
      exact ⟨htm, hu, hf, c, hcm, hcid, rfl⟩
    · rintro ⟨ht1, hu, hf, c, hcm, hcid, hnome⟩
      refine ⟨⟨r.1, ht1, c, ⟨hcm, hcid⟩, ?_⟩, hu, hf⟩
      obtain ⟨t, s⟩ := r
      simp only at hnome
      rw [hnome]
  · exact pairwise_ordenaPor (fun a b : Transacao × String => dataGe a.1.data b.1.data)
      (fun a b => dataGe_total a.1.data b.1.data)
      (fun a b c h1 h2 => dataGe_trans a.1.data b.1.data c.1.data h1 h2)
      (lerPreOrdem db uid mes ano)
  · intro d
    apply filter_ordenaPor
    intro a b ha hb
    have ha2 : a.1.data = d := by simpa using ha
    have hb2 : b.1.data = d := by simpa using hb
    rw [ha2, hb2]
    exact dataGe_refl d
  · intro d m hm
    have hm0 : (m != 0) = true := by simpa using Nat.one_le_iff_ne_zero.mp hm
    simp [matchesFiltro, pyTruthy, hm0]
  · intro d y hy
    have hy0 : (y != 0) = true := by simpa using Nat.one_le_iff_ne_zero.mp hy
    simp [matchesFiltro, pyTruthy, hy0]
  · intro d m y hm hy
    have hm0 : (m != 0) = true := by simpa using Nat.one_le_iff_ne_zero.mp hm
    have hy0 : (y != 0) = true := by simpa using Nat.one_le_iff_ne_zero.mp hy
    simp [matchesFiltro, pyTruthy, hm0, hy0]

/-- C6 witness: on the concrete store, the income transaction appears in
the unfiltered listing carrying its account's name. -/
theorem C6_witness :
    (transacaoExemplo, "Carteira") ∈ ler_transacoes dbExemplo 1 none none :=
  ((C6_listing dbExemplo 1 none none).2.1 (transacaoExemplo, "Carteira")).mpr (by decide)

/-- C7: the category report contains one pair per category having at least
one matching expense transaction — present iff such a transaction exists,
with total the sum of that category's matching stored amounts — with no
duplicate categories, ordered ascending by total; only rows with kind
despesa are aggregated, so income is excluded. -/
theorem C7_category_report (db : DB) (uid : Nat) (mes ano : Option Nat) :
    (∀ p : String × Int, p ∈ relatorio_por_categoria db uid mes ano ↔
      ((∃ t ∈ transacoesDoTipo db uid "despesa" mes ano, t.categoria = p.1) ∧
       p.2 = somaValores ((transacoesDoTipo db uid "despesa" mes ano).filter
         (fun t => t.categoria == p.1))))
    ∧ ((relatorio_por_categoria db uid mes ano).map Prod.fst).Nodup
    ∧ List.Pairwise (fun p q : String × Int => p.2 ≤ q.2)
        (relatorio_por_categoria db uid mes ano)
    ∧ (∀ t ∈ transacoesDoTipo db uid "despesa" mes ano, t.tipo = "despesa") := by
  have hperm : List.Perm (relatorio_por_categoria db uid mes ano)
      ((categoriasDistintas (transacoesDoTipo db uid "despesa" mes ano)).map (fun cat =>
        (cat, somaValores ((transacoesDoTipo db uid "despesa" mes ano).filter
          (fun t => t.categoria == cat))))) :=
    perm_ordenaPor (fun p q : String × Int => decide (p.2 ≤ q.2))
      ((categoriasDistintas (transacoesDoTipo db uid "despesa" mes ano)).map (fun cat =>
        (cat, somaValores ((transacoesDoTipo db uid "despesa" mes ano).filter
          (fun t => t.categoria == cat)))))
  refine ⟨?_, ?_, ?_, ?_⟩
  · intro p
    rw [hperm.mem_iff, List.mem_map]
    constructor
    · rintro ⟨cat, hcat, heq⟩
      subst heq
      exact ⟨(mem_categoriasDistintas cat _).mp hcat, rfl⟩
    · rintro ⟨⟨t, htm, htc⟩, hval⟩
      refine ⟨p.1, (mem_categoriasDistintas p.1 _).mpr ⟨t, htm, htc⟩, ?_⟩
      obtain ⟨p1, p2⟩ := p
      simp only at hval ⊢
      rw [hval]
  · refine ((hperm.map Prod.fst).nodup_iff).mpr ?_
    rw [map_fst_map_pair]
    exact nodup_categoriasDistintas (transacoesDoTipo db uid "despesa" mes ano)
  · have hpw := pairwise_ordenaPor (fun p q : String × Int => decide (p.2 ≤ q.2))
      (fun a b => by
        rcases le_total a.2 b.2 with h | h
        · exact Or.inl (decide_eq_true h)
        · exact Or.inr (decide_eq_true h))
      (fun a b c h1 h2 =>
        decide_eq_true (le_trans (of_decide_eq_true h1) (of_decide_eq_true h2)))
      ((categoriasDistintas (transacoesDoTipo db uid "despesa" mes ano)).map (fun cat =>
        (cat, somaValores ((transacoesDoTipo db uid "despesa" mes ano).filter
          (fun t => t.categoria == cat)))))
    exact hpw.imp (fun h => of_decide_eq_true h)
  · intro t ht
    unfold transacoesDoTipo at ht
    obtain ⟨_, hb⟩ := List.mem_filter.mp ht
    simp only [Bool.and_eq_true, beq_iff_eq] at hb
    exact hb.1.1

/-- C7 witness: on the concrete two-transaction store the report holds the
single expense category with its (negative) total, and income is absent. -/
theorem C7_witness :
    ("comida", (-80 : Int)) ∈ relatorio_por_categoria dbDespesa 1 none none :=
  ((C7_category_report dbDespesa 1 none none).1 ("comida", -80)).mpr (by decide)

end AppFin
